import Mathlib

/-!
Verification of the hoodie conversational-agent orchestration core.

Shallow embedding of the repository's graph code:
  - `src/graph/nodes/routing.py`    → `route_after_approval`
  - `src/graph/nodes/approval_node.py` → `approval_node`, `classify`, `approvalLoop`
  - `src/graph/nodes/chat_node.py`  → `chat_node_call`, `chat_node`
  - `src/graph/tools/tools.py`      → `get_tools`
  - `src/graph/graph.py`            → the `Step` transition relation

Library collaborators that are not part of the repository's sources
(langgraph's `ToolNode` and `tools_condition`, langchain's `trim_messages`)
are modelled from the specification, as marked on their doc comments.
-/

namespace Hoodie

/-- Message roles of the LangChain message taxonomy used by the repository:
System, Human, Assistant and ToolResult messages. -/
inductive Role
  | system
  | human
  | assistant
  | tool
  deriving DecidableEq, Repr

/-- A model-proposed tool call: `{call_id, tool_name, arguments}` as carried on
an `AIMessage.tool_calls` entry. -/
structure ToolCall where
  call_id : String
  name : String
  args : List (String × String)
  deriving DecidableEq, Repr

/-- One conversation message.  Only assistant messages carry a nonempty
`tool_calls` list (mirroring `hasattr(msg, 'tool_calls')` holding exactly for
`AIMessage`); only tool-result messages carry a `tool_call_id`. -/
structure Message where
  role : Role
  content : String
  tool_calls : List ToolCall
  tool_call_id : Option String
  deriving DecidableEq, Repr

/-- `ChatState` from `src/graph/state.py` as used by the nodes: the message
history plus the `approved` flag.  `approved = none` models the key being
absent from the state dict (`state.get("approved", False)` then sees the
default). -/
structure ChatState where
  messages : List Message
  approved : Option Bool
  deriving DecidableEq, Repr

/-- The two literal routing targets returned by `route_after_approval`
(`Literal["tools", "chat_node"]` in `src/graph/nodes/routing.py`). -/
inductive Route
  | tools
  | chat_node
  deriving DecidableEq, Repr

/-- `route_after_approval` from `src/graph/nodes/routing.py`:
`return "tools" if state.get("approved", False) else "chat_node"`. -/
def route_after_approval (state : ChatState) : Route :=
  if state.approved.getD false then Route.tools else Route.chat_node

/-- The claim's routing predicate, following the spec's words (§4.5): the
ToolCalls of the latest AssistantMessage that have no matching ToolResult yet.
This is a spec-side definition used only to compare the spec's routing contract
against the code's `route_after_approval`. -/
def specUnresolvedToolCalls (msgs : List Message) : List ToolCall :=
  match msgs.reverse.find? (fun m => m.role = Role.assistant) with
  | none => []
  | some a =>
      a.tool_calls.filter (fun c =>
        ! msgs.any (fun m => m.role = Role.tool && m.tool_call_id = some c.call_id))

/-- A registered tool: identity is its unique name; invocation may fail, and a
failure is represented as data (`Except.error`) so the executor can catch it. -/
structure Tool where
  name : String
  run : List (String × String) → Except String String

/-- `get_tools` from `src/graph/tools/tools.py` builds the static list (only
`execute_command` is uncommented) and then `tools.extend(get_mcp_tools())`.
The body of `execute_command` lives in `graph/tools/executeCommand.py`, which
is an out-of-scope I/O wrapper; only its registered name matters here. -/
def execute_command : Tool :=
  ⟨"execute_command", fun _ => Except.ok ""⟩

/-- `get_tools` from `src/graph/tools/tools.py`, parametrised by the list of
dynamically discovered MCP tools returned by `get_mcp_tools()`.  The source
performs no name-collision check and raises no error: it returns the plain
concatenation. -/
def get_tools (mcp_tools : List Tool) : List Tool :=
  [execute_command] ++ mcp_tools

/-! ### Approval gate (`src/graph/nodes/approval_node.py`) -/

/-- Python's `str.lower()` over the character list (the inputs at the gate
are ASCII decision tokens). -/
def pyLower (s : String) : String :=
  String.mk (s.data.map Char.toLower)

/-- Python's `str.strip()` over the character list: remove leading and
trailing whitespace. -/
def pyStrip (s : String) : String :=
  String.mk (((s.data.dropWhile Char.isWhitespace).reverse.dropWhile
      Char.isWhitespace).reverse)

/-- Classification of one line of user input by the approval loop:
`approval = input(...).lower().strip()`, then membership in the literal sets
`{'yes', 'y'}` (approve) and `{'no', 'n'}` (reject); anything else is
unrecognized and re-prompts. -/
def classify (s : String) : Option Bool :=
  let a := pyStrip (pyLower s)
  if a = "yes" ∨ a = "y" then some true
  else if a = "no" ∨ a = "n" then some false
  else none

/-- Outcome of one entry into `approval_node`, as a function of the (finite)
sequence of user inputs supplied to the `while True` prompt loop. -/
inductive GateOutcome
  | decided (approved : Bool)
  | pending
  | error
  deriving DecidableEq, Repr

/-- The `while True` prompt loop of `approval_node`: consume inputs until one
classifies as an explicit accept or reject token; unrecognized inputs
re-prompt (`print("Please answer 'yes' or 'no'")` and loop again).  If the
supplied input sequence is exhausted the gate is still prompting
(`GateOutcome.pending`): it has not defaulted to either decision. -/
def approvalLoop : List String → GateOutcome
  | [] => GateOutcome.pending
  | i :: rest =>
      match classify i with
      | some d => GateOutcome.decided d
      | none => approvalLoop rest

/-- `approval_node` from `src/graph/nodes/approval_node.py`.
`last_message = state["messages"][-1]` raises `IndexError` on an empty
history (`GateOutcome.error`).  The guard
`hasattr(last_message, 'tool_calls') and last_message.tool_calls` holds
exactly when the last message is an assistant message with a nonempty
`tool_calls` list; otherwise the node returns `{"approved": True}` without
prompting. -/
def approval_node (state : ChatState) (inputs : List String) : GateOutcome :=
  match state.messages.getLast? with
  | none => GateOutcome.error
  | some last =>
      if last.role = Role.assistant ∧ last.tool_calls ≠ [] then approvalLoop inputs
      else GateOutcome.decided true

/-! ### Tool execution stage

`ToolNode` is `langgraph.prebuilt.ToolNode`, library code that is not under
the repository's sources; the executor below is modelled from the spec. -/

/-- The result of executing one ToolCall: paired by `call_id`, carrying either
output text or error text. -/
structure ToolResult where
  call_id : String
  output : String
  isError : Bool
  deriving DecidableEq, Repr

/-- Registry lookup by tool name (first tool with a matching name). -/
def registryLookup (reg : List Tool) (name : String) : Option Tool :=
  reg.find? (fun t => t.name = name)

/-- Modelled from the spec: `ToolNode` (from `langgraph.prebuilt`, not under
`src/`) dispatches one ToolCall against the registry.  A call naming a tool
absent from the registry yields a ToolResult carrying an "unknown tool" error
text rather than aborting; a tool's own failure is caught and converted to an
error-text ToolResult.  The function is total: no exception escapes. -/
def executeCall (reg : List Tool) (c : ToolCall) : ToolResult :=
  match registryLookup reg c.name with
  | none => ⟨c.call_id, "unknown tool: " ++ c.name, true⟩
  | some t =>
      match t.run c.args with
      | Except.ok out => ⟨c.call_id, out, false⟩
      | Except.error e => ⟨c.call_id, e, true⟩

/-- Modelled from the spec: the batch executor of `ToolNode` — one ToolResult
per proposed ToolCall, in the order of the batch. -/
def executeBatch (reg : List Tool) (calls : List ToolCall) : List ToolResult :=
  calls.map (executeCall reg)

/-- A ToolResult rendered back into the message history as a tool message. -/
def toolResultMessage (r : ToolResult) : Message :=
  ⟨Role.tool, r.output, [], some r.call_id⟩

/-- Modelled from the spec: the state update performed by the `"tools"` node —
execute every ToolCall of the latest message and append all results to the
persisted history. -/
def tool_node_step (reg : List Tool) (s : ChatState) : ChatState :=
  match s.messages.getLast? with
  | none => s
  | some m =>
      ⟨s.messages ++ (executeBatch reg m.tool_calls).map toolResultMessage, s.approved⟩

/-! ### Message trimming

`trim_messages` is `langchain_core.messages.trim_messages`, library code that
is not under the repository's sources; the trimming below is modelled from
the spec's contract (§4.1). -/

/-- Cumulative token count of a sequence, for a provider-supplied counting
function (token counting is delegated to the model collaborator). -/
def totalTokens (cnt : Message → Nat) (H : List Message) : Nat :=
  (H.map cnt).sum

/-- Modelled from the spec: drop messages from the oldest end until the
cumulative token count of the remaining sequence is at most the budget. -/
def dropWhileOver (cnt : Message → Nat) (B : Nat) : List Message → List Message
  | [] => []
  | m :: rest =>
      if totalTokens cnt (m :: rest) ≤ B then m :: rest
      else dropWhileOver cnt B rest

/-- Modelled from the spec: trimming never splits a ToolCall/ToolResult pair —
when dropping separated a pair, both sides are dropped together, so a kept
suffix never begins with an orphaned tool-result message. -/
def dropLeadingToolResults : List Message → List Message
  | [] => []
  | m :: rest =>
      if m.role = Role.tool then dropLeadingToolResults rest
      else m :: rest

/-- Modelled from the spec: trim the non-system tail of the history to the
budget, preferring the most recent messages (`strategy="last"`). -/
def trimTail (cnt : Message → Nat) (B : Nat) (H : List Message) : List Message :=
  if totalTokens cnt H ≤ B then H
  else dropLeadingToolResults (dropWhileOver cnt B H)

/-- Modelled from the spec: `trim_messages` (from `langchain_core`, not under
`src/`) with `strategy="last"` and `include_system=True`, as called by
`chat_node` — the leading System message, if present, is always retained, and
the tail is trimmed to the remaining budget on a read-only copy. -/
def trimMessages (cnt : Message → Nat) (B : Nat) (H : List Message) : List Message :=
  match H with
  | [] => []
  | m :: rest =>
      if m.role = Role.system then m :: trimTail cnt (B - cnt m) rest
      else trimTail cnt B H

/-! ### Inference step (`src/graph/nodes/chat_node.py`) -/

/-- Whether the model is invoked with the tool set bound.  The `llm` object
obtained from `get_llm` is `chat_model.bind_tools(tools)`
(`src/llm/gptModel.py`), and `chat_node` calls `llm.ainvoke` on both branches
without unbinding. -/
inductive InvokeMode
  | withTools
  | textOnly
  deriving DecidableEq, Repr

/-- First synthetic note appended by `chat_node` when
`state.get("approved") == False` (first `if` block). -/
def rejectionNote1 : Message :=
  ⟨Role.assistant,
   "The user rejected the tool execution. I\x27ll answer without using tools.",
   [], none⟩

/-- Second synthetic note appended by `chat_node` when
`state.get("approved") == False` (the duplicated second `if` block). -/
def rejectionNote2 : Message :=
  ⟨Role.assistant,
   "The user rejected the tool execution. I\x27ll answer without using tools If possible otherwise Say sorry.",
   [], none⟩

/-- The single model invocation performed by `chat_node`: which effective
history is sent and in which mode. -/
structure ChatNodeCall where
  history : List Message
  mode : InvokeMode
  deriving DecidableEq, Repr

/-- The effective-history construction of `chat_node`
(`src/graph/nodes/chat_node.py`): trim to 50000 tokens keeping the system
message, then — under `state.get("approved") == False`, checked twice by two
consecutive `if` blocks — append `rejectionNote1` and then `rejectionNote2`.
Both branches invoke the same tool-bound `llm` (`llm.ainvoke(messages)`), so
the mode is `withTools` in every case. -/
def chat_node_call (cnt : Message → Nat) (state : ChatState) : ChatNodeCall :=
  let m0 := trimMessages cnt 50000 state.messages
  let m1 := if state.approved = some false then m0 ++ [rejectionNote1] else m0
  if state.approved = some false then ⟨m1 ++ [rejectionNote2], InvokeMode.withTools⟩
  else ⟨m1, InvokeMode.withTools⟩

/-- `chat_node`'s state update: `return {"messages": [response], "approved": True}`
merged by the graph's `add_messages` reducer — the response is appended to the
persisted history and the approval flag is reset to `True`.  The model
collaborator is the parameter `invoke`. -/
def chat_node (cnt : Message → Nat) (invoke : List Message → InvokeMode → Message)
    (state : ChatState) : ChatState :=
  let call := chat_node_call cnt state
  ⟨state.messages ++ [invoke call.history call.mode], some true⟩

/-! ### The conversation graph (`src/graph/graph.py`) -/

/-- The nodes of the compiled state graph, plus the implicit `START`/`END`
markers (`Node.start`, `Node.done`). -/
inductive Node
  | start
  | chat_node
  | approval
  | tools
  | done
  deriving DecidableEq, Repr

/-- Modelled from the spec: `tools_condition` (from `langgraph.prebuilt`, not
under `src/`) — after `chat_node`, go to the tools path iff the latest message
proposes at least one tool call, otherwise `END`. -/
def tools_condition (s : ChatState) : Bool :=
  match s.messages.getLast? with
  | none => false
  | some m => decide (m.tool_calls ≠ [])

/-- One transition of the compiled graph, exactly the wiring of `get_graph`
in `src/graph/graph.py`:
`START → chat_node`; `chat_node --tools_condition--> approval | END`;
`approval --route_after_approval--> tools | chat_node`;
`tools → chat_node`.  The approval step's decision (produced by
`approval_node` on some input sequence) is merged into the state as the
`approved` flag before `route_after_approval` reads it; `chat_node` and the
tool node update the state by their embedded step functions. -/
inductive Step (cnt : Message → Nat) (invoke : List Message → InvokeMode → Message)
    (reg : List Tool) : Node → ChatState → Node → ChatState → Prop
  | start_to_chat (s : ChatState) :
      Step cnt invoke reg Node.start s Node.chat_node s
  | chat_to_approval (s : ChatState)
      (h : tools_condition (chat_node cnt invoke s) = true) :
      Step cnt invoke reg Node.chat_node s Node.approval (chat_node cnt invoke s)
  | chat_to_done (s : ChatState)
      (h : tools_condition (chat_node cnt invoke s) = false) :
      Step cnt invoke reg Node.chat_node s Node.done (chat_node cnt invoke s)
  | approval_to_tools (s : ChatState) (inputs : List String) (d : Bool)
      (h : approval_node s inputs = GateOutcome.decided d)
      (hr : route_after_approval ⟨s.messages, some d⟩ = Route.tools) :
      Step cnt invoke reg Node.approval s Node.tools ⟨s.messages, some d⟩
  | approval_to_chat (s : ChatState) (inputs : List String) (d : Bool)
      (h : approval_node s inputs = GateOutcome.decided d)
      (hr : route_after_approval ⟨s.messages, some d⟩ = Route.chat_node) :
      Step cnt invoke reg Node.approval s Node.chat_node ⟨s.messages, some d⟩
  | tools_to_chat (s : ChatState) :
      Step cnt invoke reg Node.tools s Node.chat_node (tool_node_step reg s)

/-- `Step` as a binary relation on configurations (node, state), for stating
properties of whole execution traces. -/
def StepP (cnt : Message → Nat) (invoke : List Message → InvokeMode → Message)
    (reg : List Tool) (c c' : Node × ChatState) : Prop :=
  Step cnt invoke reg c.1 c.2 c'.1 c'.2

/-! ### Concrete instances used to evaluate the development -/

/-- A trivial token counter: one token per message. -/
def cnt0 : Message → Nat := fun _ => 1

/-- A concrete model collaborator that always answers with a plain assistant
message. -/
def invoke0 : List Message → InvokeMode → Message :=
  fun _ _ => ⟨Role.assistant, "ok", [], none⟩

/-- A state whose latest assistant message proposes no tool call while the
approval flag is true (exercising the routing decision). -/
def c1state : ChatState :=
  ⟨[⟨Role.assistant, "hi", [], none⟩], some true⟩

/-- A discovered tool whose name collides with the static tool
`execute_command`. -/
def collidingTool : Tool :=
  ⟨"execute_command", fun _ => Except.ok "42"⟩

/-- A discovered-tool list carrying the collision. -/
def collidingMcp : List Tool := [collidingTool]

/-- A registry with one succeeding and one failing tool. -/
def reg2 : List Tool :=
  [⟨"echo", fun _ => Except.ok "done"⟩,
   ⟨"boom", fun _ => Except.error "tool exploded"⟩]

/-- A batch with a registered call, a call to an unregistered tool, and a call
to a failing tool. -/
def batch2 : List ToolCall :=
  [⟨"c1", "echo", []⟩, ⟨"c2", "frobnicate", []⟩, ⟨"c3", "boom", []⟩]

/-- A rejected state: the user denied tool execution on the previous step. -/
def c4state : ChatState :=
  ⟨[⟨Role.human, "hi", [], none⟩], some false⟩

/-- A leading system message. -/
def sysMsg : Message := ⟨Role.system, "be nice", [], none⟩

/-- A history of one system message and four human turns, exceeding a budget
of three one-token messages. -/
def histC5 : List Message :=
  [sysMsg,
   ⟨Role.human, "h1", [], none⟩,
   ⟨Role.human, "h2", [], none⟩,
   ⟨Role.human, "h3", [], none⟩,
   ⟨Role.human, "h4", [], none⟩]

/-- An assistant message proposing one tool call. -/
def gateMsg : Message :=
  ⟨Role.assistant, "", [⟨"c1", "execute_command", []⟩], none⟩

/-- A state whose latest message is `gateMsg` and with the approval flag
absent, as seen by the approval gate. -/
def s6 : ChatState := ⟨[gateMsg], none⟩

/-- A rejected one-message state fed to the inference step. -/
def s7 : ChatState := ⟨[⟨Role.human, "hi", [], none⟩], some false⟩

/-- The approval-gate state of the C9 witness trace. -/
def s9 : ChatState := ⟨[gateMsg], none⟩

/-- The post-decision state of the C9 witness trace. -/
def s9' : ChatState := ⟨[gateMsg], some true⟩

/-- A two-configuration trace: the approval gate approves and the graph moves
to the tools node. -/
def tr9 : List (Node × ChatState) := [(Node.approval, s9), (Node.tools, s9')]

/-! ### Helper lemmas -/

theorem totalTokens_cons (cnt : Message → Nat) (m : Message) (L : List Message) :
    totalTokens cnt (m :: L) = cnt m + totalTokens cnt L := by
  simp [totalTokens]

theorem totalTokens_dropWhileOver_le (cnt : Message → Nat) (B : Nat) :
    ∀ H, totalTokens cnt (dropWhileOver cnt B H) ≤ B
  | [] => by simp [dropWhileOver, totalTokens]
  | m :: rest => by
      simp only [dropWhileOver]
      split
      next h => exact h
      next h => exact totalTokens_dropWhileOver_le cnt B rest

theorem totalTokens_dropLeadingToolResults_le (cnt : Message → Nat) :
    ∀ L, totalTokens cnt (dropLeadingToolResults L) ≤ totalTokens cnt L
  | [] => le_refl _
  | m :: rest => by
      simp only [dropLeadingToolResults]
      split
      next h =>
        refine le_trans (totalTokens_dropLeadingToolResults_le cnt rest) ?_
        rw [totalTokens_cons]
        omega
      next h => exact le_refl _

theorem totalTokens_trimTail_le (cnt : Message → Nat) (B : Nat) (H : List Message) :
    totalTokens cnt (trimTail cnt B H) ≤ B := by
  unfold trimTail
  split
  next h => exact h
  next h =>
    exact le_trans (totalTokens_dropLeadingToolResults_le cnt _)
      (totalTokens_dropWhileOver_le cnt B H)

theorem approvalLoop_decided : ∀ (inputs : List String) (d : Bool),
    approvalLoop inputs = GateOutcome.decided d → ∃ i ∈ inputs, classify i = some d
  | [], d => by simp [approvalLoop]
  | i :: rest, d => by
      simp only [approvalLoop]
      cases hc : classify i with
      | some e =>
          intro h
          simp only [GateOutcome.decided.injEq] at h
          exact ⟨i, by simp, by rw [hc, h]⟩
      | none =>
          intro h
          obtain ⟨j, hj, hcj⟩ := approvalLoop_decided rest d h
          exact ⟨j, by simp [hj], hcj⟩

theorem approvalLoop_pending : ∀ (inputs : List String),
    (∀ i ∈ inputs, classify i = none) → approvalLoop inputs = GateOutcome.pending
  | [] => fun _ => rfl
  | i :: rest => fun h => by
      simp only [approvalLoop]
      rw [h i (by simp)]
      exact approvalLoop_pending rest (fun j hj => h j (by simp [hj]))

theorem executeCall_call_id (reg : List Tool) (c : ToolCall) :
    (executeCall reg c).call_id = c.call_id := by
  unfold executeCall
  split
  · rfl
  · split <;> rfl

theorem executeBatch_map_call_id (reg : List Tool) :
    ∀ C : List ToolCall,
      (executeBatch reg C).map ToolResult.call_id = C.map ToolCall.call_id
  | [] => rfl
  | c :: rest => by
      show (executeCall reg c).call_id :: (executeBatch reg rest).map ToolResult.call_id
          = c.call_id :: rest.map ToolCall.call_id
      rw [executeCall_call_id, executeBatch_map_call_id reg rest]

/-- `classify` written without the local binding, for rewriting. -/
theorem classify_eq (s : String) :
    classify s =
      (if pyStrip (pyLower s) = "yes" ∨ pyStrip (pyLower s) = "y" then some true
       else if pyStrip (pyLower s) = "no" ∨ pyStrip (pyLower s) = "n" then some false
       else none) := rfl

/-! ### Claim theorems -/

/-- Claim C1, counterexample: the claim says the routing decision returns
`to_tools` iff the approved flag is true AND the latest assistant message has
at least one unresolved ToolCall.  At `c1state` (approved flag true, latest
assistant message with no tool calls at all) the code still routes to tools,
so the stated equivalence is false. -/
theorem C1_routing_counterexample :
    ¬ (route_after_approval c1state = Route.tools ↔
        (c1state.approved.getD false = true ∧
          specUnresolvedToolCalls c1state.messages ≠ [])) := by
  decide

/-- Claim C1, amended: `route_after_approval` returns `to_tools` iff the
approved flag is true (a missing flag counts as false), regardless of whether
the latest assistant message carries unresolved tool calls; in every other
state it returns to inference (`chat_node`). -/
theorem C1_routing_amended (s : ChatState) :
    (route_after_approval s = Route.tools ↔ s.approved.getD false = true) ∧
    (route_after_approval s = Route.chat_node ↔ s.approved.getD false = false) := by
  unfold route_after_approval
  cases hb : s.approved.getD false <;> simp

/-- Claim C2: for every batch `C` of proposed ToolCalls, the tool-execution
stage returns exactly `|C|` ToolResults, with the call_ids of `C` in the order
of `C` (hence each present exactly once when the batch has no duplicate ids);
the executor is a total function, so no exception raised by an individual
tool or by an unregistered tool name escapes the stage; a call naming a tool
absent from the registry yields a ToolResult carrying an error text instead
of aborting the batch, and a failing tool's error is likewise converted into
an error-text ToolResult. -/
theorem C2_batch_execution (reg : List Tool) (C : List ToolCall) :
    (executeBatch reg C).length = C.length ∧
    (executeBatch reg C).map ToolResult.call_id = C.map ToolCall.call_id ∧
    ((C.map ToolCall.call_id).Nodup → ∀ c ∈ C,
        ((executeBatch reg C).map ToolResult.call_id).count c.call_id = 1) ∧
    (∀ c ∈ C, registryLookup reg c.name = none →
        executeCall reg c = ⟨c.call_id, "unknown tool: " ++ c.name, true⟩) ∧
    (∀ c ∈ C, ∀ t, registryLookup reg c.name = some t → ∀ e,
        t.run c.args = Except.error e → executeCall reg c = ⟨c.call_id, e, true⟩) := by
  refine ⟨?_, executeBatch_map_call_id reg C, ?_, ?_, ?_⟩
  · simp [executeBatch]
  · intro hnd c hc
    rw [executeBatch_map_call_id reg C]
    exact List.count_eq_one_of_mem hnd (List.mem_map_of_mem _ hc)
  · intro c _ hnone
    simp only [executeCall, hnone]
  · intro c _ t ht e he
    simp only [executeCall, ht, he]

/-- Claim C2, witness: on the concrete registry `reg2` and batch `batch2`
(one good call, one call to the unregistered tool "frobnicate", one call to a
failing tool), the stage yields one result per call and converts both failure
modes into error-text results. -/
theorem C2_batch_execution_witness :
    ((executeBatch reg2 batch2).map ToolResult.call_id).count "c2" = 1 ∧
    executeCall reg2 ⟨"c2", "frobnicate", []⟩ =
      ⟨"c2", "unknown tool: frobnicate", true⟩ ∧
    executeCall reg2 ⟨"c3", "boom", []⟩ = ⟨"c3", "tool exploded", true⟩ :=
  ⟨(C2_batch_execution reg2 batch2).2.2.1 (by decide) ⟨"c2", "frobnicate", []⟩
      (by decide),
   (C2_batch_execution reg2 batch2).2.2.2.1 ⟨"c2", "frobnicate", []⟩ (by decide) rfl,
   (C2_batch_execution reg2 batch2).2.2.2.2 ⟨"c3", "boom", []⟩ (by decide)
      ⟨"boom", fun _ => Except.error "tool exploded"⟩ rfl "tool exploded" rfl⟩

/-- Claim C3, counterexample: the claim says a build with a discovered tool
named like a static tool fails with `RegistryError` and never returns a
registry with duplicate names.  `get_tools` performs no such check: on the
colliding discovered list it returns a registry carrying the name
`execute_command` twice. -/
theorem C3_collision_counterexample :
    (get_tools collidingMcp).map Tool.name = ["execute_command", "execute_command"] ∧
    ¬ ((get_tools collidingMcp).map Tool.name).Nodup := by
  exact ⟨rfl, by decide⟩

/-- Claim C3, amended: `get_tools` performs no name-collision check and cannot
fail: it always returns the concatenation of the static tools and the
discovered tools, so whenever a discovered tool is named `execute_command`
(the static tool name) the returned registry contains duplicate names. -/
theorem C3_no_collision_check (mcp : List Tool)
    (h : ∃ t ∈ mcp, t.name = "execute_command") :
    (get_tools mcp).map Tool.name = "execute_command" :: mcp.map Tool.name ∧
    ¬ ((get_tools mcp).map Tool.name).Nodup := by
  refine ⟨rfl, ?_⟩
  intro hn
  rw [show (get_tools mcp).map Tool.name
      = "execute_command" :: mcp.map Tool.name from rfl] at hn
  obtain ⟨t, ht, hname⟩ := h
  exact (List.nodup_cons.mp hn).1 (List.mem_map.mpr ⟨t, ht, hname⟩)

/-- Claim C3, witness: the amended statement evaluated on the concrete
colliding discovered list. -/
theorem C3_no_collision_check_witness :
    (get_tools collidingMcp).map Tool.name
        = "execute_command" :: collidingMcp.map Tool.name ∧
    ¬ ((get_tools collidingMcp).map Tool.name).Nodup :=
  C3_no_collision_check collidingMcp ⟨collidingTool, List.Mem.head _, rfl⟩

/-- Claim C4, code bug: at a rejected state the claim (and the spec) require
exactly one synthetic instruction message and a model invocation that cannot
re-offer tool calls.  The code contains two consecutive `if` blocks guarded by
the same rejection test, so it appends TWO synthetic notes, and despite its
own comment ("Unbind tools temporarily to force a text response") it invokes
the same tool-bound model on both branches. -/
theorem C4_rejection_bug :
    (chat_node_call cnt0 c4state).history =
      [⟨Role.human, "hi", [], none⟩, rejectionNote1, rejectionNote2] ∧
    (chat_node_call cnt0 c4state).mode = InvokeMode.withTools := by
  decide

/-- Claim C5: for all histories `H` and budgets `B`, the trimmed view retains
the leading System message iff `H` begins with one, and the total token count
of the trimmed view is at most `B` whenever that bound is satisfiable without
dropping the system message (a leading system message that fits the budget by
itself; a kept tail never splits a ToolCall/ToolResult pair, since trimming
drops both sides of a separated pair together). -/
theorem C5_trimming (cnt : Message → Nat) (B : Nat) (H : List Message) :
    ((∃ s, H.head? = some s ∧ s.role = Role.system ∧
        (trimMessages cnt B H).head? = some s) ↔
      (∃ s, H.head? = some s ∧ s.role = Role.system)) ∧
    ((∀ s, H.head? = some s → s.role = Role.system → cnt s ≤ B) →
      totalTokens cnt (trimMessages cnt B H) ≤ B) := by
  cases H with
  | nil => simp [trimMessages, totalTokens]
  | cons m rest =>
    by_cases hm : m.role = Role.system
    · have htrim : trimMessages cnt B (m :: rest)
          = m :: trimTail cnt (B - cnt m) rest := by
        simp [trimMessages, hm]
      constructor
      · constructor
        · rintro ⟨s, hs, hrole, _⟩
          exact ⟨s, hs, hrole⟩
        · rintro ⟨s, hs, hrole⟩
          refine ⟨s, hs, hrole, ?_⟩
          simp only [List.head?_cons, Option.some.injEq] at hs
          subst hs
          rw [htrim]
          rfl
      · intro hb
        have hmB : cnt m ≤ B := hb m rfl hm
        rw [htrim, totalTokens_cons]
        have h2 := totalTokens_trimTail_le cnt (B - cnt m) rest
        omega
    · have htrim : trimMessages cnt B (m :: rest)
          = trimTail cnt B (m :: rest) := by
        simp [trimMessages, hm]
      constructor
      · constructor
        · rintro ⟨s, hs, hrole, _⟩
          exact ⟨s, hs, hrole⟩
        · rintro ⟨s, hs, hrole⟩
          simp only [List.head?_cons, Option.some.injEq] at hs
          subst hs
          exact absurd hrole hm
      · intro _
        rw [htrim]
        exact totalTokens_trimTail_le cnt B (m :: rest)

/-- Claim C5, witness: on the concrete five-message history `histC5` (one
system message plus four one-token human turns) and budget 3, the trimmed
view stays within the budget and still begins with the system message. -/
theorem C5_trimming_witness :
    totalTokens cnt0 (trimMessages cnt0 3 histC5) ≤ 3 ∧
    (∃ s, histC5.head? = some s ∧ s.role = Role.system ∧
        (trimMessages cnt0 3 histC5).head? = some s) :=
  ⟨(C5_trimming cnt0 3 histC5).2 (fun s _ _ => by simp [cnt0]),
   (C5_trimming cnt0 3 histC5).1.mpr ⟨sysMsg, rfl, rfl⟩⟩

/-- Claim C6: when the latest message is an assistant message carrying at
least one ToolCall, the gate decides approved only when some supplied input
normalizes to an explicit accept token, decides rejected only when some input
normalizes to an explicit reject token, and when every supplied input is
unrecognized it is still re-prompting — it never silently defaults to either
decision. -/
theorem C6_gate (s : ChatState) (inputs : List String) (last : Message)
    (hl : s.messages.getLast? = some last)
    (ha : last.role = Role.assistant) (ht : last.tool_calls ≠ []) :
    (approval_node s inputs = GateOutcome.decided true →
       ∃ i ∈ inputs, classify i = some true) ∧
    (approval_node s inputs = GateOutcome.decided false →
       ∃ i ∈ inputs, classify i = some false) ∧
    ((∀ i ∈ inputs, classify i = none) →
       approval_node s inputs = GateOutcome.pending) := by
  have hnode : approval_node s inputs = approvalLoop inputs := by
    unfold approval_node
    rw [hl]
    simp [ha, ht]
  rw [hnode]
  exact ⟨approvalLoop_decided inputs true, approvalLoop_decided inputs false,
    approvalLoop_pending inputs⟩

/-- Claim C6, witness: at the concrete state `s6` (assistant message with one
pending ToolCall) and input sequence `["ok", "yes"]`, the gate theorem applies
with every hypothesis discharged by evaluation. -/
theorem C6_gate_witness :
    (approval_node s6 ["ok", "yes"] = GateOutcome.decided true →
       ∃ i ∈ (["ok", "yes"] : List String), classify i = some true) ∧
    (approval_node s6 ["ok", "yes"] = GateOutcome.decided false →
       ∃ i ∈ (["ok", "yes"] : List String), classify i = some false) ∧
    ((∀ i ∈ (["ok", "yes"] : List String), classify i = none) →
       approval_node s6 ["ok", "yes"] = GateOutcome.pending) :=
  C6_gate s6 ["ok", "yes"] gateMsg rfl rfl (by decide)

/-- Claim C7: one execution of the inference step appends exactly one
assistant message to the persisted history (whatever the prior approval flag
and whether or not tools were requested) and leaves the approved flag equal
to true, so a stale rejection cannot influence a later turn. -/
theorem C7_inference_resets_approval (cnt : Message → Nat)
    (invoke : List Message → InvokeMode → Message) (s : ChatState)
    (hA : ∀ h m, (invoke h m).role = Role.assistant) :
    (∃ r, (chat_node cnt invoke s).messages = s.messages ++ [r] ∧
        r.role = Role.assistant) ∧
    (chat_node cnt invoke s).approved = some true :=
  ⟨⟨invoke (chat_node_call cnt s).history (chat_node_call cnt s).mode, rfl,
      hA _ _⟩, rfl⟩

/-- Claim C7, witness: the inference step evaluated on the concrete rejected
state `s7` with the concrete assistant-answering model `invoke0`. -/
theorem C7_inference_resets_approval_witness :
    (∃ r, (chat_node cnt0 invoke0 s7).messages = s7.messages ++ [r] ∧
        r.role = Role.assistant) ∧
    (chat_node cnt0 invoke0 s7).approved = some true :=
  C7_inference_resets_approval cnt0 invoke0 s7 (fun _ _ => rfl)

/-- Claim C8: running the inference step leaves every previously persisted
message unchanged in content and order — the old history is a prefix of the
new one; trimming only shapes the effective view handed to the model, never
the persisted record. -/
theorem C8_history_frame (cnt : Message → Nat)
    (invoke : List Message → InvokeMode → Message) (s : ChatState) :
    s.messages <+: (chat_node cnt invoke s).messages ∧
    (chat_node cnt invoke s).messages.take s.messages.length = s.messages :=
  ⟨⟨[invoke (chat_node_call cnt s).history (chat_node_call cnt s).mode], rfl⟩,
   List.take_left s.messages _⟩

/-- Inversion of one graph transition into the tools node: the only edge into
`tools` is the conditional edge out of `approval` taken when the merged
decision makes `route_after_approval` answer `tools`, which forces the
decision to be an approval. -/
theorem step_into_tools {cnt : Message → Nat}
    {invoke : List Message → InvokeMode → Message} {reg : List Tool}
    {n : Node} {s : ChatState} {n' : Node} {s' : ChatState}
    (h : Step cnt invoke reg n s n' s') (ht : n' = Node.tools) :
    n = Node.approval ∧ s'.approved = some true ∧
      ∃ inputs, approval_node s inputs = GateOutcome.decided true := by
  cases h with
  | start_to_chat s => simp at ht
  | chat_to_approval s h => simp at ht
  | chat_to_done s h => simp at ht
  | approval_to_tools s inputs d h hr =>
      cases d with
      | false => simp [route_after_approval] at hr
      | true => exact ⟨rfl, rfl, inputs, h⟩
  | approval_to_chat s inputs d h hr => simp at ht
  | tools_to_chat s => simp at ht

/-- Claim C9: in every execution trace of the graph, the tools node is entered
only immediately after an approval step whose decision was approved — the
successor state carries `approved = true` and the gate produced an approving
decision; tool execution never follows inference directly and never follows a
rejection. -/
theorem C9_tools_only_after_approval (cnt : Message → Nat)
    (invoke : List Message → InvokeMode → Message) (reg : List Tool)
    (tr : List (Node × ChatState)) (htr : List.Chain' (StepP cnt invoke reg) tr)
    (i : Nat) (hi : i + 1 < tr.length)
    (ht : (tr.get ⟨i + 1, hi⟩).1 = Node.tools) :
    (tr.get ⟨i, Nat.lt_of_succ_lt hi⟩).1 = Node.approval ∧
    (tr.get ⟨i + 1, hi⟩).2.approved = some true ∧
    ∃ inputs, approval_node (tr.get ⟨i, Nat.lt_of_succ_lt hi⟩).2 inputs =
        GateOutcome.decided true := by
  have hstep := List.chain'_iff_get.mp htr i (by omega)
  exact step_into_tools hstep ht

/-- Claim C9, witness: the two-configuration trace `tr9`, in which the gate
approves on input "yes" and the graph moves from the approval node to the
tools node. -/
theorem C9_tools_only_after_approval_witness :
    (tr9.get ⟨0, by decide⟩).1 = Node.approval ∧
    (tr9.get ⟨1, by decide⟩).2.approved = some true ∧
    ∃ inputs, approval_node (tr9.get ⟨0, by decide⟩).2 inputs =
        GateOutcome.decided true := by
  have hstep : StepP cnt0 invoke0 [] (Node.approval, s9) (Node.tools, s9') :=
    Step.approval_to_tools s9 ["yes"] true (by decide) (by decide)
  have htr : List.Chain' (StepP cnt0 invoke0 []) tr9 :=
    List.chain'_cons.mpr ⟨hstep, List.chain'_singleton _⟩
  exact C9_tools_only_after_approval cnt0 invoke0 [] tr9 htr 0 (by decide) rfl

/-- Claim C10: the approval gate normalizes the decision by lowercasing and
stripping surrounding whitespace, and the recognized tokens are exactly
`yes`/`y` for approval and `no`/`n` for rejection; in particular "YES" and
" n " are recognized decisions while "ok" is not. -/
theorem C10_decision_tokens :
    (∀ s, classify s = some true ↔
      (pyStrip (pyLower s) = "yes" ∨ pyStrip (pyLower s) = "y")) ∧
    (∀ s, classify s = some false ↔
      (pyStrip (pyLower s) = "no" ∨ pyStrip (pyLower s) = "n")) ∧
    classify "YES" = some true ∧ classify " n " = some false ∧
    classify "ok" = none := by
  refine ⟨fun s => ?_, fun s => ?_, by decide, by decide, by decide⟩
  · rw [classify_eq s]
    split_ifs with h1 h2
    · exact iff_of_true rfl h1
    · constructor
      · intro h
        exact absurd h (by decide)
      · intro hx
        exact absurd hx h1
    · constructor
      · intro h
        exact absurd h (by decide)
      · intro hx
        exact absurd hx h1
  · rw [classify_eq s]
    split_ifs with h1 h2
    · constructor
      · intro h
        exact absurd h (by decide)
      · intro hx
        rcases h1 with h | h <;> rcases hx with h' | h' <;> rw [h] at h' <;>
          exact absurd h' (by decide)
    · exact iff_of_true rfl h2
    · constructor
      · intro h
        exact absurd h (by decide)
      · intro hx
        exact absurd hx h2

end Hoodie
